import Mathlib

/-!
# Verification of the card-game server state machine

Shallow embedding of the game logic of `src/server.js` (an authoritative
server for a multiplayer card game).  Each definition below is a direct
translation of the corresponding JavaScript function; socket event handlers
are modelled as pure functions `GameState → ... → GameState × Outcome`,
where `Outcome` records what the handler would emit.

Modelling conventions:
* JavaScript arrays become `List`, numbers become `Nat` (all card values and
  indices in this code are non-negative integers), `undefined`/`null` become
  `Option`.
* In-place mutation of the room's `gameState` object becomes explicit state
  passing; mutation of a player found by `Array.prototype.find` becomes
  `updateFirst` (update of the first roster entry with the matching id).
* A private `socket.emit('error', msg)` is modelled as `Outcome.err msg`;
  room-wide broadcasts become the other `Outcome` constructors.
-/

/-- A card as built by `createDeck` in `server.js`: a suit string, a value
string and the derived numeric value. -/
structure Card where
  suit : String
  value : String
  numericValue : Nat
deriving DecidableEq, Repr

/-- The per-player state kept in `gameState.players` (fields relevant to
game play; `visibleCards` is always empty in the source and is omitted). -/
structure Player where
  id : String
  name : String
  handCards : List Card
  blindCards : List Card
  isReady : Bool
deriving DecidableEq, Repr

/-- The room state created by `createGameState` in `server.js`.
`currentPlayer` models the property `gameState.currentPlayer`, which is
*read* by the `playCard2WithBlind` handler but never assigned anywhere in
the server, hence always `undefined` (`none`). -/
structure GameState where
  roomCode : String
  players : List Player
  deck : List Card
  tableCards : List Card
  currentPlayerIndex : Nat
  gameStarted : Bool
  gameEnded : Bool
  lastCardValue : Nat
  turnDirection : Int
  skipNextPlayer : Bool
  mustThrowAfterTaking : Bool
  playerWhoTook : Option String
  currentPlayer : Option String
deriving DecidableEq, Repr

/-- `parseInt` restricted to the digit strings that occur as card values
("2" … "10"; any other string parses to `NaN`, modelled as 0). -/
def parseIntValue : String → Nat
  | "2" => 2
  | "3" => 3
  | "4" => 4
  | "5" => 5
  | "6" => 6
  | "7" => 7
  | "8" => 8
  | "9" => 9
  | "10" => 10
  | _ => 0

/-- `getNumericValue` from `server.js`. -/
def getNumericValue (value : String) : Nat :=
  if value == "J" then 11
  else if value == "Q" then 12
  else if value == "K" then 13
  else if value == "A" then 14
  else parseIntValue value

def suitsList : List String := ["hearts", "diamonds", "clubs", "spades"]

def faceValuesList : List String :=
  ["2", "3", "4", "5", "6", "7", "8", "9", "10", "J", "Q", "K", "A"]

/-- The 52-card deck in the construction order of `createDeck`.  The final
Fisher-Yates shuffle is a uniformly random permutation; concrete states
below use the identity permutation, which is one of its possible outcomes. -/
def fullDeck : List Card :=
  (suitsList.map (fun s => faceValuesList.map (fun v => ⟨s, v, getNumericValue v⟩))).flatten

/-- `canPlayCard` from `server.js` (the `tableCards` argument of the source
is unused there and dropped here). -/
def canPlayCard (card : Card) (lastCardValue : Nat) : Bool :=
  if card.numericValue == 2 || card.numericValue == 10 then true
  else decide (lastCardValue ≤ card.numericValue)

/-- `canPlayCardCombo` from `server.js`.  The `[]` case cannot be reached
with a well-formed client payload (the source would throw on
`cards[0].numericValue`); it is modelled as a rejection. -/
def canPlayCardCombo (cards : List Card) (lastCardValue : Nat) : Bool :=
  match cards with
  | [] => false
  | [card] =>
    if card.numericValue == 2 then false
    else canPlayCard card lastCardValue
  | a :: b :: rest =>
    let cs := a :: b :: rest
    let hasTwo := cs.any (fun c => c.numericValue == 2)
    if hasTwo then
      -- Card 2 combo: bypasses hierarchy, but a combo of only 2s is illegal
      !(cs.filter (fun c => c.numericValue != 2)).isEmpty
    else
      -- Same-number combo
      cs.all (fun c => c.numericValue == a.numericValue) &&
        decide (lastCardValue ≤ a.numericValue)

/-- One `findIndex`/`splice` pair on a hand: remove the first card matching
the requested (suit, value), as in `handleCardPlay`. -/
def removeFirstCard (cardToRemove : Card) : List Card → Option (List Card)
  | [] => none
  | c :: rest =>
    if c.suit == cardToRemove.suit && c.value == cardToRemove.value then
      some rest
    else
      (removeFirstCard cardToRemove rest).map (fun l => c :: l)

/-- The removal loop of `handleCardPlay` (lines 162-184 of `server.js`):
for each requested card, try the hand first; if absent and the hand is
empty, try the blind cards; count successful removals.  Crucially, removals
happen eagerly with no rollback. -/
def removeCardsLoop : List Card → List Card → List Card → Nat →
    List Card × List Card × Nat
  | [], hand, blind, removed => (hand, blind, removed)
  | c :: rest, hand, blind, removed =>
    match removeFirstCard c hand with
    | some hand1 => removeCardsLoop rest hand1 blind (removed + 1)
    | none =>
      if hand.isEmpty then
        match removeFirstCard c blind with
        | some blind1 => removeCardsLoop rest hand blind1 (removed + 1)
        | none => removeCardsLoop rest hand blind removed
      else
        removeCardsLoop rest hand blind removed

/-- `gameState.players[gameState.currentPlayerIndex].id`, made total. -/
def currentPlayerId (gs : GameState) : Option String :=
  (gs.players.get? gs.currentPlayerIndex).map (fun p => p.id)

/-- In-place mutation of the first roster entry with the given id (the
object returned by `players.find(p => p.id === sid)` in the source). -/
def updateFirst (sid : String) (f : Player → Player) : List Player → List Player
  | [] => []
  | p :: rest =>
    if p.id == sid then f p :: rest else p :: updateFirst sid f rest

/-- `Math.max(...nonTwoCards.map(c => c.numericValue))` over the non-2 cards
of a play.  (`Math.max()` of an empty list is `-Infinity`; the source only
reaches this with at least one non-2 card present, where the fold below
agrees.) -/
def maxNonTwoValue (cards : List Card) : Nat :=
  (cards.filter (fun c => c.numericValue != 2)).foldl
    (fun m c => max m c.numericValue) 0

/-- The power effect of a single played card (lines 206-222 of
`server.js`).  The rank-7 index arithmetic `(i - 1 + n) % n` agrees with
the `Nat` expression below for every valid index `i < n`, `n ≥ 1`. -/
def powerEffect (card : Card) (s : GameState) : GameState :=
  if card.numericValue == 10 then
    { s with tableCards := [], lastCardValue := 0 }
  else if card.numericValue == 2 then
    s
  else if card.numericValue == 7 then
    { s with
      currentPlayerIndex :=
        (s.currentPlayerIndex + s.players.length - 1) % s.players.length,
      skipNextPlayer := true }
  else if card.numericValue == 8 then
    { s with skipNextPlayer := true }
  else
    s

/-- `cardsToPlay.forEach(card => ...)` applying power effects in submission
order. -/
def applyPowerEffects : List Card → GameState → GameState
  | [], s => s
  | c :: rest, s => applyPowerEffects rest (powerEffect c s)

/-- Hand replenishment (lines 225-234 of `server.js`): while the deck is
non-empty and the hand holds fewer than 3 cards, draw from the deck front. -/
def drawUpToThree (hand deck : List Card) : List Card × List Card :=
  if decide (0 < deck.length) && decide (hand.length < 3) then
    let n := min (3 - hand.length) deck.length
    (hand ++ deck.take n, deck.drop n)
  else
    (hand, deck)

/-- `handleCardPlay` from `server.js`.  Returns the (possibly mutated)
state together with `some errorMessage` on failure.  Note that on the
"cards not found" failure path the state returned is the *mutated* one:
the source splices cards out of the hand before performing the count
check and never rolls back. -/
def handleCardPlay (gs : GameState) (playerId : String) (cardsToPlay : List Card) :
    GameState × Option String :=
  match gs.players.find? (fun p => p.id == playerId) with
  | none => (gs, some "Player not found")
  | some player =>
    let lastCardValue :=
      match gs.tableCards.getLast? with
      | some c => c.numericValue
      | none => 0
    if !canPlayCardCombo cardsToPlay lastCardValue then
      (gs, some "Invalid card combination")
    else
      let rres := removeCardsLoop cardsToPlay player.handCards player.blindCards 0
      let hand1 := rres.1
      let blind1 := rres.2.1
      let removed := rres.2.2
      let gs1 := { gs with
        players := updateFirst playerId
          (fun p => { p with handCards := hand1, blindCards := blind1 }) gs.players }
      if removed != cardsToPlay.length then
        (gs1, some "One or more cards not found in player hand")
      else
        let gs2 := { gs1 with tableCards := gs1.tableCards ++ cardsToPlay }
        let hasTwo := cardsToPlay.any (fun c => c.numericValue == 2)
        let lcv :=
          if hasTwo && decide (1 < cardsToPlay.length) then maxNonTwoValue cardsToPlay
          else ((cardsToPlay.getLast?).map (fun c => c.numericValue)).getD 0
        let gs3 := { gs2 with lastCardValue := lcv }
        let gs4 := applyPowerEffects cardsToPlay gs3
        let dres := drawUpToThree hand1 gs4.deck
        let gs5 := { gs4 with
          players := updateFirst playerId
            (fun p => { p with handCards := dres.1 }) gs4.players,
          deck := dres.2 }
        (gs5, none)

/-- `nextPlayer` from `server.js`.  The JavaScript `%` and `Int.emod` agree
here because the dividend is non-negative in every reachable state
(`turnDirection` is initialised to `1` and never reassigned). -/
def nextPlayer (gs : GameState) : GameState :=
  let n : Int := gs.players.length
  if gs.skipNextPlayer then
    { gs with
      skipNextPlayer := false,
      currentPlayerIndex :=
        (((gs.currentPlayerIndex : Int) + gs.turnDirection * 2 + n) % n).toNat }
  else
    { gs with
      currentPlayerIndex :=
        (((gs.currentPlayerIndex : Int) + gs.turnDirection + n) % n).toNat }

/-- `checkWinCondition` from `server.js`. -/
def checkWinCondition (p : Player) : Bool :=
  p.handCards.isEmpty && p.blindCards.isEmpty

/-- What a command handler emits: a private error to the sender, or one of
the room-wide broadcasts.  `silent` models a bare `return` with no emit. -/
inductive Outcome where
  | err (msg : String)
  | cardPlayed
  | gameEnded (winner : String)
  | taken
  | revealed (card : Card) (canRevealAnother : Bool)
  | silent
deriving DecidableEq, Repr

def Outcome.isErr : Outcome → Bool
  | .err _ => true
  | _ => false

/-- The `socket.on('playCard')` handler (lines 382-452 of `server.js`),
for a room with `gameState` present.  Turn guards, delegation to
`handleCardPlay`, clearing of the must-throw flags, win check (setting
`gameEnded`), and turn advancement.  An out-of-range
`currentPlayerIndex` would make the source throw on `.id`; here the guard
simply rejects (both leave the state unchanged). -/
def playCard (gs : GameState) (sid : String) (cardData : List Card) :
    GameState × Outcome :=
  if !gs.gameStarted then
    (gs, .err "Game not started")
  else if gs.mustThrowAfterTaking && !(gs.playerWhoTook == some sid) then
    (gs, .err "Player who took cards must throw first")
  else if !gs.mustThrowAfterTaking && !(currentPlayerId gs == some sid) then
    (gs, .err "Not your turn")
  else
    match handleCardPlay gs sid cardData with
    | (gs1, some e) => (gs1, .err e)
    | (gs1, none) =>
      let wasMandatoryThrow := gs1.mustThrowAfterTaking && gs1.playerWhoTook == some sid
      let gs2 :=
        if wasMandatoryThrow then
          { gs1 with mustThrowAfterTaking := false, playerWhoTook := none }
        else gs1
      match gs2.players.find? (fun p => p.id == sid) with
      | none => (gs2, .err "Player not found")
      | some currentPlayer =>
        if checkWinCondition currentPlayer then
          ({ gs2 with gameEnded := true }, .gameEnded currentPlayer.name)
        else
          (nextPlayer gs2, .cardPlayed)

/-- The `socket.on('takeTableCards')` handler (lines 454-494).  Note: it
checks neither `gameEnded` nor `mustThrowAfterTaking`. -/
def takeTableCards (gs : GameState) (sid : String) : GameState × Outcome :=
  if !gs.gameStarted then
    (gs, .silent)
  else if !(currentPlayerId gs == some sid) then
    (gs, .err "Not your turn")
  else
    match gs.players.find? (fun p => p.id == sid) with
    | none => (gs, .silent)
    | some _player =>
      ({ gs with
          players := updateFirst sid
            (fun p => { p with handCards := p.handCards ++ gs.tableCards }) gs.players,
          tableCards := [],
          lastCardValue := 0,
          mustThrowAfterTaking := true,
          playerWhoTook := some sid },
        .taken)

/-- The `socket.on('revealBlindCard')` handler (lines 496-556).  The
`data.blindIndex < 0` rejection of the source is vacuous for a `Nat`
index and is subsumed by the upper-bound check. -/
def revealBlindCard (gs : GameState) (sid : String) (blindIndex : Nat) :
    GameState × Outcome :=
  if !gs.gameStarted then
    (gs, .err "Game not found or not started")
  else if !(currentPlayerId gs == some sid) &&
      (!gs.mustThrowAfterTaking || !(gs.playerWhoTook == some sid)) then
    (gs, .err "Not your turn")
  else
    match gs.players.find? (fun p => p.id == sid) with
    | none => (gs, .err "Player not found")
    | some player =>
      let allHandCardsAre2s :=
        decide (0 < player.handCards.length) &&
          player.handCards.all (fun c => c.numericValue == 2)
      let noHandCards := player.handCards.isEmpty
      if !allHandCardsAre2s && !noHandCards then
        (gs, .err "Can only reveal blind cards when hand is empty or all hand cards are 2s")
      else if decide (player.blindCards.length ≤ blindIndex) then
        (gs, .err "Invalid blind card index")
      else
        match player.blindCards.get? blindIndex with
        | none => (gs, .err "Invalid blind card index")
        | some blindCard =>
          let newBlind := player.blindCards.eraseIdx blindIndex
          ({ gs with
              players := updateFirst sid
                (fun p => { p with
                  handCards := p.handCards ++ [blindCard],
                  blindCards := newBlind }) gs.players },
            .revealed blindCard
              ((blindCard.numericValue == 2) && decide (0 < newBlind.length)))

/-- The validation loop of `playCard2WithBlind` (lines 589-599): each
submitted card must be found in the hand with `numericValue === 2`; the
hand indices are collected before any mutation. -/
def findCard2Index (hand : List Card) (k : Card) : Option Nat :=
  hand.findIdx? (fun c =>
    c.suit == k.suit && c.value == k.value && c.numericValue == 2)

def collectCard2Indices (hand : List Card) : List Card → Except String (List Nat)
  | [] => .ok []
  | k :: rest =>
    match findCard2Index hand k with
    | none => .error ("Card 2 " ++ k.value ++ k.suit ++ " not found in hand")
    | some i => (collectCard2Indices hand rest).map (fun l => i :: l)

/-- Insertion into a descending-sorted list, for
`card2Indices.sort((a, b) => b - a)`. -/
def insertDesc (n : Nat) : List Nat → List Nat
  | [] => [n]
  | m :: rest => if m ≤ n then n :: m :: rest else m :: insertDesc n rest

def sortDesc (l : List Nat) : List Nat := l.foldr insertDesc []

/-- The splice loop of lines 612-615: splice the collected indices out of
the hand in descending order, `unshift`-ing each removed card (so the
removed cards end up in ascending hand order).  A `splice` at an
out-of-range index removes nothing (the source would then `unshift` an
`undefined` entry; the model omits the non-card entry). -/
def spliceIndices : List Nat → List Card → List Card × List Card
  | [], hand => ([], hand)
  | i :: rest, hand =>
    let removedHere := ((hand.get? i).map (fun c => [c])).getD []
    let hand1 := hand.eraseIdx i
    let r := spliceIndices rest hand1
    (r.1 ++ removedHere, r.2)

/-- The `socket.on('playCard2WithBlind')` handler (lines 558-668).  The
turn guard compares against `gs.currentPlayer`, the never-assigned
property (see `GameState.currentPlayer`), and the win branch emits the
`gameEnded` event *without* setting the `gameEnded` flag — both mirrored
from the source. -/
def playCard2WithBlind (gs : GameState) (sid : String) (card2s : List Card)
    (blindIndex : Nat) : GameState × Outcome :=
  if !gs.gameStarted then
    (gs, .err "Game not found or not started")
  else if !(gs.currentPlayer == some sid) &&
      (!gs.mustThrowAfterTaking || !(gs.playerWhoTook == some sid)) then
    (gs, .err "Not your turn")
  else
    match gs.players.find? (fun p => p.id == sid) with
    | none => (gs, .err "Player not found")
    | some player =>
      if card2s.isEmpty then
        (gs, .err "No Card 2s provided")
      else
        match collectCard2Indices player.handCards card2s with
        | .error e => (gs, .err e)
        | .ok idxs =>
          if decide (player.blindCards.length ≤ blindIndex) then
            (gs, .err "Invalid blind card index")
          else
            match player.blindCards.get? blindIndex with
            | none => (gs, .err "Invalid blind card index")
            | some blindCard =>
              let newBlind := player.blindCards.eraseIdx blindIndex
              let sres := spliceIndices (sortDesc idxs) player.handCards
              let removedCard2s := sres.1
              let newHand := sres.2
              let cardsToPlay := removedCard2s ++ [blindCard]
              let gs1 := { gs with
                players := updateFirst sid
                  (fun p => { p with handCards := newHand, blindCards := newBlind })
                  gs.players,
                tableCards := gs.tableCards ++ cardsToPlay,
                lastCardValue := blindCard.numericValue }
              let gs2 :=
                if blindCard.numericValue == 10 then
                  { gs1 with tableCards := [], lastCardValue := 0 }
                else if blindCard.numericValue == 7 then
                  { gs1 with
                    currentPlayerIndex :=
                      (gs1.currentPlayerIndex + gs1.players.length - 1) %
                        gs1.players.length,
                    skipNextPlayer := true }
                else if blindCard.numericValue == 8 then
                  { gs1 with skipNextPlayer := true }
                else gs1
              let gs3 := { gs2 with
                mustThrowAfterTaking := false, playerWhoTook := none }
              if newHand.isEmpty && newBlind.isEmpty then
                (gs3, .gameEnded sid)
              else
                (nextPlayer gs3, .cardPlayed)

/-- Every card currently tracked by a room: deck, all hands, all blind
sets and the table pile, in that order. -/
def allCards (gs : GameState) : List Card :=
  gs.deck ++ (gs.players.map (fun p => p.handCards)).flatten ++
    (gs.players.map (fun p => p.blindCards)).flatten ++ gs.tableCards

/-! ## Concrete room states used by the claim theorems below -/
/-- Shorthand for building a concrete card. -/
def mkC (s v : String) (n : Nat) : Card := ⟨s, v, n⟩

def gsA : GameState :=
  { roomCode := "R1"
    players :=
      [ ⟨"A", "Alice", [mkC "hearts" "2" 2, mkC "clubs" "9" 9], [mkC "diamonds" "4" 4], true⟩,
        ⟨"B", "Bob", [mkC "spades" "5" 5], [mkC "diamonds" "6" 6], true⟩ ]
    deck := [mkC "clubs" "7" 7]
    tableCards := [mkC "hearts" "3" 3]
    currentPlayerIndex := 0
    gameStarted := true
    gameEnded := false
    lastCardValue := 3
    turnDirection := 1
    skipNextPlayer := false
    mustThrowAfterTaking := false
    playerWhoTook := none
    currentPlayer := none }


def gsC2 : GameState :=
  { roomCode := "R2"
    players :=
      [ ⟨"A", "Alice", fullDeck.take 3, (fullDeck.drop 3).take 3, true⟩,
        ⟨"B", "Bob", (fullDeck.drop 6).take 3, (fullDeck.drop 9).take 3, true⟩ ]
    deck := fullDeck.drop 13
    tableCards := (fullDeck.drop 12).take 1
    currentPlayerIndex := 0
    gameStarted := true
    gameEnded := false
    lastCardValue := 14
    turnDirection := 1
    skipNextPlayer := false
    mustThrowAfterTaking := false
    playerWhoTook := none
    currentPlayer := none }


def gsC3 : GameState :=
  { roomCode := "R3"
    players :=
      [ ⟨"A", "Alice", [mkC "hearts" "9" 9], [], true⟩,
        ⟨"B", "Bob", [mkC "spades" "5" 5], [mkC "diamonds" "6" 6], true⟩ ]
    deck := []
    tableCards := [mkC "hearts" "3" 3]
    currentPlayerIndex := 0
    gameStarted := true
    gameEnded := false
    lastCardValue := 3
    turnDirection := 1
    skipNextPlayer := false
    mustThrowAfterTaking := false
    playerWhoTook := none
    currentPlayer := none }


def gsC7 : GameState :=
  { roomCode := "R7"
    players :=
      [ ⟨"A", "Alice", [mkC "hearts" "2" 2, mkC "clubs" "9" 9], [mkC "diamonds" "7" 7], true⟩,
        ⟨"B", "Bob", [mkC "spades" "5" 5], [mkC "diamonds" "6" 6], true⟩ ]
    deck := []
    tableCards := [mkC "hearts" "3" 3]
    currentPlayerIndex := 0
    gameStarted := true
    gameEnded := false
    lastCardValue := 3
    turnDirection := 1
    skipNextPlayer := false
    mustThrowAfterTaking := false
    playerWhoTook := none
    currentPlayer := none }


def gsC9 : GameState :=
  { roomCode := "R9"
    players :=
      [ ⟨"A", "Alice", [], [mkC "spades" "2" 2], true⟩,
        ⟨"B", "Bob", [mkC "spades" "5" 5], [mkC "diamonds" "6" 6], true⟩ ]
    deck := []
    tableCards := [mkC "hearts" "3" 3]
    currentPlayerIndex := 0
    gameStarted := true
    gameEnded := false
    lastCardValue := 3
    turnDirection := 1
    skipNextPlayer := false
    mustThrowAfterTaking := false
    playerWhoTook := none
    currentPlayer := none }


-- successful playCard2WithBlind via the must-throw escape (for C10 witness)
def gsC10 : GameState :=
  { roomCode := "RX"
    players :=
      [ ⟨"A", "Alice", [mkC "hearts" "2" 2, mkC "clubs" "9" 9], [mkC "diamonds" "4" 4], true⟩,
        ⟨"B", "Bob", [mkC "spades" "5" 5], [mkC "diamonds" "6" 6], true⟩ ]
    deck := [mkC "clubs" "7" 7]
    tableCards := [mkC "hearts" "3" 3]
    currentPlayerIndex := 0
    gameStarted := true
    gameEnded := false
    lastCardValue := 3
    turnDirection := 1
    skipNextPlayer := false
    mustThrowAfterTaking := true
    playerWhoTook := some "A"
    currentPlayer := none }


/-! ## Claim theorems -/

/-- C1: the claim fails on the code.  In `gsA`, player A (to move) submits
the combo {2 of hearts, K of spades}; the king is nowhere in A's cards, so
the play is rejected with the card-not-found error — but the state is NOT
"exactly as it was before the command": the 2 of hearts was already
spliced out of A's hand when the failure was detected, and it is never
restored (nor does it reach the table pile).  `handleCardPlay` removes
cards eagerly and performs the `cardsRemoved !== cardsToPlay.length` check
only afterwards, with no rollback. -/
theorem failedPlay_mutates_state :
    (playCard gsA "A" [mkC "hearts" "2" 2, mkC "spades" "K" 13]).2 =
      Outcome.err "One or more cards not found in player hand"
    ∧ (playCard gsA "A" [mkC "hearts" "2" 2, mkC "spades" "K" 13]).1 ≠ gsA
    ∧ ((playCard gsA "A" [mkC "hearts" "2" 2, mkC "spades" "K" 13]).1.players.find?
        (fun p => p.id == "A")).map (fun p => p.handCards) = some [mkC "clubs" "9" 9]
    ∧ (playCard gsA "A" [mkC "hearts" "2" 2, mkC "spades" "K" 13]).1.tableCards =
        gsA.tableCards := by
  decide

/-- C2: card conservation fails on the code.  `gsC2` is a freshly dealt
2-player room holding all 52 cards (identity shuffle).  Player A submits
{2 of hearts (held), 5 of diamonds (in the deck, not held)}: the combo
passes legality (wild combo), the 2 of hearts is spliced out of A's hand,
then the missing 5 of diamonds aborts the play — and the 2 of hearts is
gone from every zone while no rank-10 clear ever happened (the table pile
is untouched).  The union drops from 52 to 51 cards. -/
theorem failedPlay_breaks_card_conservation :
    (allCards gsC2).length = 52
    ∧ (allCards gsC2).contains (mkC "hearts" "2" 2) = true
    ∧ (playCard gsC2 "A" [mkC "hearts" "2" 2, mkC "diamonds" "5" 5]).2 =
        Outcome.err "One or more cards not found in player hand"
    ∧ (allCards (playCard gsC2 "A" [mkC "hearts" "2" 2, mkC "diamonds" "5" 5]).1).length = 51
    ∧ (allCards (playCard gsC2 "A" [mkC "hearts" "2" 2, mkC "diamonds" "5" 5]).1).contains
        (mkC "hearts" "2" 2) = false
    ∧ (playCard gsC2 "A" [mkC "hearts" "2" 2, mkC "diamonds" "5" 5]).1.tableCards =
        gsC2.tableCards := by
  decide

/-- C3: the claim fails on the code.  In `gsC3`, player A plays their last
card and wins: the server emits `gameEnded` and sets the `gameEnded` flag.
But no command handler ever reads `gameEnded`, so the room keeps accepting
commands: the very next `takeTableCards` from the player at
`currentPlayerIndex` succeeds (broadcast `tableCardsTaken`) and mutates
the state (the pile moves into the hand and the must-throw flags are set). -/
theorem commands_accepted_after_game_end :
    (playCard gsC3 "A" [mkC "hearts" "9" 9]).2 = Outcome.gameEnded "Alice"
    ∧ (playCard gsC3 "A" [mkC "hearts" "9" 9]).1.gameEnded = true
    ∧ (takeTableCards (playCard gsC3 "A" [mkC "hearts" "9" 9]).1 "A").2 = Outcome.taken
    ∧ (takeTableCards (playCard gsC3 "A" [mkC "hearts" "9" 9]).1 "A").1 ≠
        (playCard gsC3 "A" [mkC "hearts" "9" 9]).1 := by
  decide

/-- C7: the claim fails on the code.  In `gsC7` the game is started,
`mustThrowAfterTaking` is not set, player A sits at `currentPlayerIndex`,
holds the 2 of hearts in hand and has a valid blind index 0 — yet
`playCard2WithBlind` rejects the command with `Not your turn` and leaves
the state unchanged.  The handler's turn guard compares `socket.id`
against `gameState.currentPlayer`, a property no code ever assigns
(everything else uses `players[currentPlayerIndex].id`), so the normal
turn path can never be taken. -/
theorem playCard2WithBlind_rejects_current_player :
    gsC7.gameStarted = true
    ∧ gsC7.mustThrowAfterTaking = false
    ∧ currentPlayerId gsC7 = some "A"
    ∧ (gsC7.players.find? (fun p => p.id == "A")).map
        (fun p => p.handCards.contains (mkC "hearts" "2" 2)) = some true
    ∧ (gsC7.players.find? (fun p => p.id == "A")).map
        (fun p => p.blindCards.length) = some 1
    ∧ playCard2WithBlind gsC7 "A" [mkC "hearts" "2" 2] 0 =
        (gsC7, Outcome.err "Not your turn") := by
  decide

/-- C9 counterexample: the claim "if the revealed blind card has
numericValue 2 then the server reports canRevealAnother = true" is false.
In `gsC9` player A reveals their only blind card, the 2 of spades: the
revealed card has numericValue 2, yet the event carries
`canRevealAnother = false`, because the source additionally requires
`player.blindCards.length > 0` after the removal. -/
theorem reveal_last_two_not_canRevealAnother :
    (revealBlindCard gsC9 "A" 0).2 =
      Outcome.revealed (mkC "spades" "2" 2) false
    ∧ (mkC "spades" "2" 2).numericValue = 2 := by
  decide

/-! ## Helper lemmas -/

theorem find?_append_first (pre : List Player) (pl : Player) (post : List Player)
    (sid : String) (hpre : ∀ p ∈ pre, (p.id == sid) = false) (hpl : (pl.id == sid) = true) :
    (pre ++ pl :: post).find? (fun p => p.id == sid) = some pl := by
  induction pre with
  | nil => simp [List.find?_cons, hpl]
  | cons q rest ih =>
    have hq : (q.id == sid) = false := hpre q (by simp)
    rw [List.cons_append, List.find?_cons]
    simp only [hq]
    exact ih (fun p hp => hpre p (List.mem_cons_of_mem _ hp))

theorem updateFirst_append (pre : List Player) (pl : Player) (post : List Player)
    (sid : String) (f : Player → Player)
    (hpre : ∀ p ∈ pre, (p.id == sid) = false) (hpl : (pl.id == sid) = true) :
    updateFirst sid f (pre ++ pl :: post) = pre ++ f pl :: post := by
  induction pre with
  | nil => simp [updateFirst, hpl]
  | cons q rest ih =>
    have hq := hpre q (by simp)
    simpa [updateFirst, hq] using ih (fun p hp => hpre p (by simp [hp]))

theorem find?_updateFirst (sid : String) (f : Player → Player)
    (hid : ∀ x, ((f x).id == sid) = (x.id == sid)) (l : List Player) :
    (updateFirst sid f l).find? (fun p => p.id == sid) =
      (l.find? (fun p => p.id == sid)).map f := by
  induction l with
  | nil => simp [updateFirst]
  | cons q rest ih =>
    by_cases hq : (q.id == sid) = true
    · have hfq : ((f q).id == sid) = true := by rw [hid q]; exact hq
      simp [updateFirst, hq, List.find?_cons, hfq]
    · have hq' : (q.id == sid) = false := Bool.of_not_eq_true hq
      have hfq' : ((f q).id == sid) = false := by rw [hid q]; exact hq'
      simp [updateFirst, hq', List.find?_cons, ih]

theorem find?_updateFirst_hb (sid : String) (X Y : List Card) (l : List Player) :
    (updateFirst sid (fun p => { p with handCards := X, blindCards := Y }) l).find?
        (fun p => p.id == sid) =
      (l.find? (fun p => p.id == sid)).map
        (fun p => { p with handCards := X, blindCards := Y }) :=
  find?_updateFirst sid (fun p => { p with handCards := X, blindCards := Y })
    (fun _ => rfl) l

theorem find?_updateFirst_h (sid : String) (X : List Card) (l : List Player) :
    (updateFirst sid (fun p => { p with handCards := X }) l).find?
        (fun p => p.id == sid) =
      (l.find? (fun p => p.id == sid)).map (fun p => { p with handCards := X }) :=
  find?_updateFirst sid (fun p => { p with handCards := X }) (fun _ => rfl) l

theorem applyPowerEffects_fields (cards : List Card) (s : GameState) :
    (applyPowerEffects cards s).players = s.players
    ∧ (applyPowerEffects cards s).deck = s.deck
    ∧ (applyPowerEffects cards s).mustThrowAfterTaking = s.mustThrowAfterTaking
    ∧ (applyPowerEffects cards s).playerWhoTook = s.playerWhoTook
    ∧ (applyPowerEffects cards s).gameStarted = s.gameStarted
    ∧ (applyPowerEffects cards s).gameEnded = s.gameEnded := by
  induction cards generalizing s with
  | nil => simp [applyPowerEffects]
  | cons c rest ih =>
    have hstep := ih (powerEffect c s)
    have hpe : (powerEffect c s).players = s.players
        ∧ (powerEffect c s).deck = s.deck
        ∧ (powerEffect c s).mustThrowAfterTaking = s.mustThrowAfterTaking
        ∧ (powerEffect c s).playerWhoTook = s.playerWhoTook
        ∧ (powerEffect c s).gameStarted = s.gameStarted
        ∧ (powerEffect c s).gameEnded = s.gameEnded := by
      unfold powerEffect
      split <;> try simp
      split <;> try simp
      split <;> try simp
      split <;> simp
    simp only [applyPowerEffects]
    exact ⟨hstep.1.trans hpe.1, hstep.2.1.trans hpe.2.1,
      hstep.2.2.1.trans hpe.2.2.1, hstep.2.2.2.1.trans hpe.2.2.2.1,
      hstep.2.2.2.2.1.trans hpe.2.2.2.2.1, hstep.2.2.2.2.2.trans hpe.2.2.2.2.2⟩

theorem nextPlayer_fields (gs : GameState) :
    (nextPlayer gs).players = gs.players
    ∧ (nextPlayer gs).deck = gs.deck
    ∧ (nextPlayer gs).mustThrowAfterTaking = gs.mustThrowAfterTaking
    ∧ (nextPlayer gs).playerWhoTook = gs.playerWhoTook
    ∧ (nextPlayer gs).gameEnded = gs.gameEnded := by
  unfold nextPlayer
  split <;> simp

theorem nextPlayer_players (gs : GameState) : (nextPlayer gs).players = gs.players :=
  (nextPlayer_fields gs).1

theorem nextPlayer_deck (gs : GameState) : (nextPlayer gs).deck = gs.deck :=
  (nextPlayer_fields gs).2.1

theorem nextPlayer_mustThrow (gs : GameState) :
    (nextPlayer gs).mustThrowAfterTaking = gs.mustThrowAfterTaking :=
  (nextPlayer_fields gs).2.2.1

theorem nextPlayer_playerWhoTook (gs : GameState) :
    (nextPlayer gs).playerWhoTook = gs.playerWhoTook :=
  (nextPlayer_fields gs).2.2.2.1


/-- C5: the multi-card legality rule of `canPlayCardCombo`, exactly as the
spec states it.  For a play of at least two cards: (1) a rank-2 together
with at least one non-2 card is legal regardless of the other cards and of
`lastCardValue`; (2) a play of only rank-2s is illegal; (3) with no rank-2,
the play is legal exactly when all cards share one `numericValue` that is
at least `lastCardValue`. -/
theorem canPlayCardCombo_multi_spec (a b : Card) (rest : List Card) (lastCardValue : Nat) :
    ((∃ c ∈ a :: b :: rest, c.numericValue = 2) →
      (∃ c ∈ a :: b :: rest, c.numericValue ≠ 2) →
      canPlayCardCombo (a :: b :: rest) lastCardValue = true)
    ∧ ((∀ c ∈ a :: b :: rest, c.numericValue = 2) →
      canPlayCardCombo (a :: b :: rest) lastCardValue = false)
    ∧ ((∀ c ∈ a :: b :: rest, c.numericValue ≠ 2) →
      (canPlayCardCombo (a :: b :: rest) lastCardValue = true ↔
        ((∀ c ∈ a :: b :: rest, c.numericValue = a.numericValue) ∧
          lastCardValue ≤ a.numericValue))) := by
  refine ⟨?_, ?_, ?_⟩
  · rintro ⟨c2, hm2, h2⟩ ⟨cn, hmn, hn⟩
    have hasTwo : (a :: b :: rest).any (fun c => c.numericValue == 2) = true :=
      List.any_eq_true.mpr ⟨c2, hm2, by simp [h2]⟩
    have hmem : cn ∈ (a :: b :: rest).filter (fun c => c.numericValue != 2) :=
      List.mem_filter.mpr ⟨hmn, by simp [hn]⟩
    have hne : (a :: b :: rest).filter (fun c => c.numericValue != 2) ≠ [] :=
      List.ne_nil_of_mem hmem
    simp only [canPlayCardCombo, hasTwo, if_true]
    simp [List.isEmpty_eq_false.mpr hne]
  · intro hall
    have hasTwo : (a :: b :: rest).any (fun c => c.numericValue == 2) = true :=
      List.any_eq_true.mpr ⟨a, by simp, by simp [hall a (by simp)]⟩
    have hnil : (a :: b :: rest).filter (fun c => c.numericValue != 2) = [] :=
      List.filter_eq_nil_iff.mpr (fun c hc => by simp [hall c hc])
    simp only [canPlayCardCombo, hasTwo, if_true]
    simp [hnil]
  · intro hnone
    have hasTwo : (a :: b :: rest).any (fun c => c.numericValue == 2) = false := by
      rw [← Bool.not_eq_true, List.any_eq_true]
      rintro ⟨c, hc, h2⟩
      exact hnone c hc (by simpa using h2)
    simp only [canPlayCardCombo, hasTwo, Bool.false_eq_true, if_false]
    simp [List.all_eq_true]

/-- Witness for `canPlayCardCombo_multi_spec`: with `lastCardValue = 9`,
the wild combo {2 of hearts, 3 of clubs} is accepted even though 3 < 9. -/
theorem canPlayCardCombo_multi_spec_w :
    canPlayCardCombo [mkC "hearts" "2" 2, mkC "clubs" "3" 3] 9 = true :=
  (canPlayCardCombo_multi_spec (mkC "hearts" "2" 2) (mkC "clubs" "3" 3) [] 9).1
    (by decide) (by decide)

/-- The `handleCardPlay` fragment of C6: a play consisting of exactly one
rank-2 card always fails the combo validation, before any mutation. -/
theorem handleCardPlay_lone_two (gs : GameState) (sid : String) (pl : Player) (c : Card)
    (hfind : gs.players.find? (fun p => p.id == sid) = some pl)
    (hc : c.numericValue = 2) :
    handleCardPlay gs sid [c] = (gs, some "Invalid card combination") := by
  unfold handleCardPlay
  rw [hfind]
  simp [canPlayCardCombo, hc]

/-- C6: whenever the `playCard` handler's turn guards admit the command
(started game; the sender is the must-throw owner if the flag is set, and
the current player otherwise), a play consisting of exactly one rank-2
card is rejected with the `Invalid card combination` error and the state
is unchanged. -/
theorem lone_two_rejected (gs : GameState) (sid : String) (pl : Player) (c : Card)
    (hstart : gs.gameStarted = true)
    (hguard1 : gs.mustThrowAfterTaking = true → gs.playerWhoTook = some sid)
    (hguard2 : gs.mustThrowAfterTaking = false → currentPlayerId gs = some sid)
    (hfind : gs.players.find? (fun p => p.id == sid) = some pl)
    (hc : c.numericValue = 2) :
    playCard gs sid [c] = (gs, Outcome.err "Invalid card combination") := by
  have hh := handleCardPlay_lone_two gs sid pl c hfind hc
  unfold playCard
  rw [hstart, hh]
  cases hmt : gs.mustThrowAfterTaking with
  | true => simp [hguard1 hmt]
  | false => simp [hguard2 hmt]

/-- Witness for `lone_two_rejected` at the concrete room `gsA`: player A,
to move, submits only the 2 of hearts and is rejected. -/
theorem lone_two_rejected_w :
    playCard gsA "A" [mkC "hearts" "2" 2] = (gsA, Outcome.err "Invalid card combination") :=
  lone_two_rejected gsA "A"
    ⟨"A", "Alice", [mkC "hearts" "2" 2, mkC "clubs" "9" 9], [mkC "diamonds" "4" 4], true⟩
    (mkC "hearts" "2" 2) rfl (by decide) (by decide) (by decide) rfl

/-- C8: in a started game, a `takeTableCards` command from the player at
`currentPlayerIndex` succeeds (broadcast `tableCardsTaken`) and its whole
effect is: the table pile is appended to that player's hand, the pile is
emptied, `lastCardValue` resets to 0, `mustThrowAfterTaking` is set with
`playerWhoTook` = that player — and every other field, in particular
`currentPlayerIndex`, is untouched. -/
theorem takeTableCards_spec (gs : GameState) (sid : String)
    (pre post : List Player) (pl : Player)
    (hstart : gs.gameStarted = true)
    (hsplit : gs.players = pre ++ pl :: post)
    (hpre : ∀ p ∈ pre, (p.id == sid) = false)
    (hpl : (pl.id == sid) = true)
    (hcur : currentPlayerId gs = some sid) :
    takeTableCards gs sid =
      ({ gs with
          players := pre ++
            { pl with handCards := pl.handCards ++ gs.tableCards } :: post,
          tableCards := [],
          lastCardValue := 0,
          mustThrowAfterTaking := true,
          playerWhoTook := some sid },
        Outcome.taken) := by
  unfold takeTableCards
  rw [hstart, hcur]
  have hfind : gs.players.find? (fun p => p.id == sid) = some pl := by
    rw [hsplit]; exact find?_append_first pre pl post sid hpre hpl
  rw [hfind]
  have hupd : updateFirst sid
      (fun p => { p with handCards := p.handCards ++ gs.tableCards }) gs.players =
      pre ++ { pl with handCards := pl.handCards ++ gs.tableCards } :: post := by
    rw [hsplit]; exact updateFirst_append pre pl post sid _ hpre hpl
  simp [hupd]

/-- Witness for `takeTableCards_spec` at the concrete room `gsA`. -/
theorem takeTableCards_spec_w :
    takeTableCards gsA "A" =
      ({ gsA with
          players :=
            [] ++ { (⟨"A", "Alice", [mkC "hearts" "2" 2, mkC "clubs" "9" 9],
                      [mkC "diamonds" "4" 4], true⟩ : Player) with
                    handCards := [mkC "hearts" "2" 2, mkC "clubs" "9" 9] ++ gsA.tableCards } ::
              [⟨"B", "Bob", [mkC "spades" "5" 5], [mkC "diamonds" "6" 6], true⟩],
          tableCards := [],
          lastCardValue := 0,
          mustThrowAfterTaking := true,
          playerWhoTook := some "A" },
        Outcome.taken) :=
  takeTableCards_spec gsA "A" []
    [⟨"B", "Bob", [mkC "spades" "5" 5], [mkC "diamonds" "6" 6], true⟩]
    ⟨"A", "Alice", [mkC "hearts" "2" 2, mkC "clubs" "9" 9], [mkC "diamonds" "4" 4], true⟩
    rfl rfl (by simp) (by decide) (by decide)

/-- C9 (amended): for every successful `revealBlindCard` command, the
named blind card is moved into the acting player's hand (appended),
`currentPlayerIndex`, the table pile and the deck are untouched, and the
reported `canRevealAnother` is true exactly when the revealed card has
numericValue 2 AND at least one blind card remains after the removal. -/
theorem revealBlindCard_success_spec (gs : GameState) (sid : String) (blindIndex : Nat)
    (pl : Player) (gs1 : GameState) (bc : Card) (can : Bool)
    (hfind : gs.players.find? (fun p => p.id == sid) = some pl)
    (hrun : revealBlindCard gs sid blindIndex = (gs1, Outcome.revealed bc can)) :
    pl.blindCards.get? blindIndex = some bc
    ∧ gs1.players.find? (fun p => p.id == sid) =
        some { pl with handCards := pl.handCards ++ [bc],
                       blindCards := pl.blindCards.eraseIdx blindIndex }
    ∧ can = ((bc.numericValue == 2) &&
        decide (0 < (pl.blindCards.eraseIdx blindIndex).length))
    ∧ gs1.currentPlayerIndex = gs.currentPlayerIndex
    ∧ gs1.tableCards = gs.tableCards
    ∧ gs1.deck = gs.deck := by
  unfold revealBlindCard at hrun
  rw [hfind] at hrun
  by_cases h1 : gs.gameStarted = true
  case neg =>
    simp [h1] at hrun
  case pos =>
  rw [h1] at hrun
  simp only [Bool.not_true, Bool.false_eq_true, if_false] at hrun
  split at hrun
  · simp at hrun
  · split at hrun
    · simp at hrun
    · split at hrun
      · simp at hrun
      · split at hrun
        · simp at hrun
        · rename_i blindCard hget
          rw [Prod.mk.injEq] at hrun
          obtain ⟨hfst, hsnd⟩ := hrun
          obtain ⟨hbc, hcan⟩ := Outcome.revealed.inj hsnd
          subst hbc
          refine ⟨hget, ?_, hcan.symm, ?_, ?_, ?_⟩
          · rw [← hfst]
            have hmap := find?_updateFirst sid
              (fun p => { p with handCards := p.handCards ++ [blindCard],
                                 blindCards := pl.blindCards.eraseIdx blindIndex })
              (fun x => rfl) gs.players
            rw [hmap, hfind]
            rfl
          · rw [← hfst]
          · rw [← hfst]
          · rw [← hfst]

/-- Witness for `revealBlindCard_success_spec` at the concrete room
`gsC9`: player A reveals their single blind 2 of spades. -/
theorem revealBlindCard_success_spec_w :
    (⟨"A", "Alice", [], [mkC "spades" "2" 2], true⟩ : Player).blindCards.get? 0 =
        some (mkC "spades" "2" 2)
    ∧ (revealBlindCard gsC9 "A" 0).1.players.find? (fun p => p.id == "A") =
        some { (⟨"A", "Alice", [], [mkC "spades" "2" 2], true⟩ : Player) with
                handCards :=
                  (⟨"A", "Alice", [], [mkC "spades" "2" 2], true⟩ : Player).handCards ++
                    [mkC "spades" "2" 2],
                blindCards :=
                  (⟨"A", "Alice", [], [mkC "spades" "2" 2], true⟩ : Player).blindCards.eraseIdx 0 }
    ∧ false = (((mkC "spades" "2" 2).numericValue == 2) &&
        decide (0 <
          ((⟨"A", "Alice", [], [mkC "spades" "2" 2], true⟩ : Player).blindCards.eraseIdx 0).length))
    ∧ (revealBlindCard gsC9 "A" 0).1.currentPlayerIndex = gsC9.currentPlayerIndex
    ∧ (revealBlindCard gsC9 "A" 0).1.tableCards = gsC9.tableCards
    ∧ (revealBlindCard gsC9 "A" 0).1.deck = gsC9.deck :=
  revealBlindCard_success_spec gsC9 "A" 0
    ⟨"A", "Alice", [], [mkC "spades" "2" 2], true⟩
    (revealBlindCard gsC9 "A" 0).1 (mkC "spades" "2" 2) false
    (by decide) (by decide)

theorem applyPowerEffects_mustThrow (cards : List Card) (s : GameState) :
    (applyPowerEffects cards s).mustThrowAfterTaking = s.mustThrowAfterTaking :=
  (applyPowerEffects_fields cards s).2.2.1

theorem applyPowerEffects_playerWhoTook (cards : List Card) (s : GameState) :
    (applyPowerEffects cards s).playerWhoTook = s.playerWhoTook :=
  (applyPowerEffects_fields cards s).2.2.2.1

theorem applyPowerEffects_players (cards : List Card) (s : GameState) :
    (applyPowerEffects cards s).players = s.players :=
  (applyPowerEffects_fields cards s).1

theorem applyPowerEffects_deck (cards : List Card) (s : GameState) :
    (applyPowerEffects cards s).deck = s.deck :=
  (applyPowerEffects_fields cards s).2.1

/-- `handleCardPlay` never touches the must-throw flags (it only mutates
players, table pile, `lastCardValue`, turn index / skip flag and deck). -/
theorem handleCardPlay_flags (gs : GameState) (sid : String) (cards : List Card) :
    (handleCardPlay gs sid cards).1.mustThrowAfterTaking = gs.mustThrowAfterTaking
    ∧ (handleCardPlay gs sid cards).1.playerWhoTook = gs.playerWhoTook := by
  unfold handleCardPlay
  split
  · exact ⟨rfl, rfl⟩
  all_goals try dsimp only
  all_goals try split
  all_goals try exact ⟨rfl, rfl⟩
  all_goals try split
  all_goals try exact ⟨rfl, rfl⟩
  all_goals constructor <;>
    simp [applyPowerEffects_mustThrow, applyPowerEffects_playerWhoTook]

/-- C4: while `mustThrowAfterTaking` is set with `playerWhoTook = p` (and,
as `takeTableCards` establishes, `p` still sits at `currentPlayerIndex`),
every `playCard`, `takeTableCards` and `revealBlindCard` command from any
other player `q` is rejected with a private error (`NotYourTurn` in the
spec's taxonomy; the `playCard` handler words it "Player who took cards
must throw first") and leaves the state unchanged; and a successful
`playCard` by `p` itself leaves the must-throw flags cleared. -/
theorem mustThrow_exclusivity (gs : GameState) (p q : String)
    (cards : List Card) (blindIndex : Nat)
    (hstart : gs.gameStarted = true)
    (hmt : gs.mustThrowAfterTaking = true)
    (htook : gs.playerWhoTook = some p)
    (hcur : currentPlayerId gs = some p)
    (hq : q ≠ p) :
    playCard gs q cards = (gs, Outcome.err "Player who took cards must throw first")
    ∧ takeTableCards gs q = (gs, Outcome.err "Not your turn")
    ∧ revealBlindCard gs q blindIndex = (gs, Outcome.err "Not your turn")
    ∧ ((playCard gs p cards).2.isErr = false →
        (playCard gs p cards).1.mustThrowAfterTaking = false
        ∧ (playCard gs p cards).1.playerWhoTook = none) := by
  have hpq : (some p == some q) = false := by
    simp only [beq_eq_false_iff_ne, ne_eq, Option.some.injEq]
    exact fun h => hq h.symm
  have hpp : (some p == some p) = true := by simp
  refine ⟨?_, ?_, ?_, ?_⟩
  · unfold playCard
    rw [hstart, hmt, htook, hpq]
    simp
  · unfold takeTableCards
    rw [hstart, hcur, hpq]
    simp
  · unfold revealBlindCard
    rw [hstart, hcur, hmt, htook, hpq]
    simp
  · intro hsucc
    unfold playCard at hsucc ⊢
    rw [hstart, hmt, htook, hpp] at hsucc ⊢
    simp only [Bool.not_true, Bool.false_eq_true, if_false, Bool.and_false,
      Bool.false_and, Bool.not_false] at hsucc ⊢
    have hflags := handleCardPlay_flags gs p cards
    split at hsucc
    · simp [Outcome.isErr] at hsucc
    · rename_i gs1 heq
      rw [heq] at hflags
      have hmand : (gs1.mustThrowAfterTaking && gs1.playerWhoTook == some p) = true := by
        rw [hflags.1, hflags.2, hmt, htook]
        simp
      rw [hmand]
      simp only [if_true]
      split
      · exact ⟨rfl, rfl⟩
      · split
        · exact ⟨rfl, rfl⟩
        · constructor <;>
            simp [nextPlayer_mustThrow, nextPlayer_playerWhoTook]

/-- Witness for `mustThrow_exclusivity` at the concrete room `gsC10`
(player A has taken the pile): player B's `takeTableCards` is rejected
with the state unchanged. -/
theorem mustThrow_exclusivity_w :
    takeTableCards gsC10 "B" = (gsC10, Outcome.err "Not your turn") :=
  (mustThrow_exclusivity gsC10 "A" "B" [mkC "spades" "5" 5] 0
    rfl rfl rfl (by decide) (by decide)).2.1

theorem spliceIndices_sublist (idxs : List Nat) (hand : List Card) :
    (spliceIndices idxs hand).2.Sublist hand := by
  induction idxs generalizing hand with
  | nil => simp [spliceIndices]
  | cons i rest ih =>
    simp only [spliceIndices]
    exact (ih (hand.eraseIdx i)).trans (List.eraseIdx_sublist hand i)

theorem drop_sub_self (l : List Card) (n : Nat) :
    l.drop (l.length - (l.drop n).length) = l.drop n := by
  rw [List.length_drop]
  by_cases h : n ≤ l.length
  · have heq : l.length - (l.length - n) = n := by omega
    rw [heq]
  · have heq : l.length - (l.length - n) = l.length := by omega
    rw [heq, List.drop_length]
    exact (List.drop_eq_nil_iff.mpr (by omega)).symm

theorem drawUpToThree_shape (hand deck : List Card) :
    (∃ n, (drawUpToThree hand deck).2 = deck.drop n)
    ∧ (deck ≠ [] →
        3 ≤ (drawUpToThree hand deck).1.length ∨ (drawUpToThree hand deck).2 = []) := by
  unfold drawUpToThree
  split
  · rename_i hcond
    simp only [Bool.and_eq_true, decide_eq_true_eq] at hcond
    constructor
    · exact ⟨min (3 - hand.length) deck.length, rfl⟩
    · intro _
      by_cases h3 : 3 - hand.length ≤ deck.length
      · left
        simp only [List.length_append, List.length_take]
        omega
      · right
        simp only [List.drop_eq_nil_iff]
        omega
  · rename_i hcond
    simp only [Bool.and_eq_true, decide_eq_true_eq, not_and, not_lt] at hcond
    constructor
    · exact ⟨0, by simp⟩
    · intro hne
      left
      exact hcond (List.length_pos.mpr hne)

/-- Shape of a successful `handleCardPlay`: the resulting deck is a
front-drop of the original deck, and — when the deck was non-empty — the
acting player's hand was replenished to at least 3 cards unless the deck
ran out. -/
theorem handleCardPlay_success_shape (gs : GameState) (sid : String) (cards : List Card)
    (gs1 : GameState)
    (hrun : handleCardPlay gs sid cards = (gs1, none)) :
    (∃ n, gs1.deck = gs.deck.drop n)
    ∧ (gs.deck ≠ [] → ∀ pl',
        gs1.players.find? (fun p => p.id == sid) = some pl' →
        3 ≤ pl'.handCards.length ∨ gs1.deck = []) := by
  unfold handleCardPlay at hrun
  split at hrun
  · simp at hrun
  rename_i player hfind
  dsimp only at hrun
  split at hrun
  all_goals try (have hc := congrArg Prod.snd hrun; simp at hc)
  all_goals try split at hrun
  all_goals try (have hc := congrArg Prod.snd hrun; simp at hc)
  all_goals try split at hrun
  all_goals try (have hc := congrArg Prod.snd hrun; simp at hc)
  all_goals
    rw [Prod.mk.injEq] at hrun
  all_goals
    obtain ⟨hfst, -⟩ := hrun
  all_goals
    subst hfst
  all_goals refine ⟨by
      dsimp only
      simp only [applyPowerEffects_deck]
      exact (drawUpToThree_shape _ _).1,
    by
      intro hne pl' hfind'
      dsimp only at hfind'
      simp only [applyPowerEffects_players, find?_updateFirst_h, find?_updateFirst_hb,
        hfind, Option.map_some'] at hfind'
      obtain rfl := Option.some.inj hfind'
      dsimp only
      simp only [applyPowerEffects_deck]
      exact (drawUpToThree_shape _ _).2 hne⟩

theorem err_ne_ok {gsx gsy : GameState} {m : String} {o : Outcome}
    (h : (gsx, Outcome.err m) = (gsy, o)) (ho : o.isErr = false) : False := by
  have h2 := congrArg Prod.snd h
  dsimp only at h2
  rw [← h2] at ho
  simp [Outcome.isErr] at ho

/-- Shape of a successful `playCard` command: the resulting deck is a
front-drop of the original, and — when the deck was non-empty — the acting
player's hand holds at least 3 cards afterwards unless the deck ran out. -/
theorem playCard_success_shape (gsB : GameState) (sidB : String) (cards : List Card)
    (gsB1 : GameState) (oB : Outcome)
    (hrunB : playCard gsB sidB cards = (gsB1, oB))
    (hoB : oB.isErr = false) :
    (∃ n, gsB1.deck = gsB.deck.drop n)
    ∧ (gsB.deck ≠ [] → ∀ plB',
        gsB1.players.find? (fun p => p.id == sidB) = some plB' →
        3 ≤ plB'.handCards.length ∨ gsB1.deck = []) := by
  unfold playCard at hrunB
  split at hrunB
  · exact (err_ne_ok hrunB hoB).elim
  · split at hrunB
    · exact (err_ne_ok hrunB hoB).elim
    · split at hrunB
      · exact (err_ne_ok hrunB hoB).elim
      · split at hrunB
        · exact (err_ne_ok hrunB hoB).elim
        · rename_i gs1x heq
          have hshape := handleCardPlay_success_shape gsB sidB cards gs1x heq
          dsimp only at hrunB
          split at hrunB
          all_goals try split at hrunB
          all_goals try split at hrunB
          all_goals try exact (err_ne_ok hrunB hoB).elim
          all_goals rw [Prod.mk.injEq] at hrunB
          all_goals obtain ⟨hfst, -⟩ := hrunB
          all_goals subst hfst
          all_goals exact ⟨by
              obtain ⟨n, hn⟩ := hshape.1
              exact ⟨n, by simp only [nextPlayer_deck]; exact hn⟩,
            by
              intro hne plB' hfindB'
              simp only [nextPlayer_players] at hfindB'
              simp only [nextPlayer_deck]
              exact hshape.2 hne plB' hfindB'⟩

/-- C10: a `playCard2WithBlind` command never touches the deck — after any
successful run the deck is exactly what it was, and the acting player's
hand is only ever reduced (a sublist of the old hand: no replenishment
toward 3 cards, however small it ends up and however full the deck is) —
whereas a successful `playCard` from a non-empty deck draws from the deck
front (the new deck is a front-drop of the old) until the hand reaches 3
cards or the deck empties. -/
theorem wildBlind_no_draw_vs_playCard_draw
    (gs : GameState) (sid : String) (card2s : List Card) (blindIndex : Nat)
    (pl pl' : Player) (gs1 : GameState) (o : Outcome)
    (gsB : GameState) (sidB : String) (cards : List Card)
    (plB' : Player) (gsB1 : GameState) (oB : Outcome)
    (hfind : gs.players.find? (fun p => p.id == sid) = some pl)
    (hrun : playCard2WithBlind gs sid card2s blindIndex = (gs1, o))
    (ho : o.isErr = false)
    (hfind' : gs1.players.find? (fun p => p.id == sid) = some pl')
    (hrunB : playCard gsB sidB cards = (gsB1, oB))
    (hoB : oB.isErr = false)
    (hfindB' : gsB1.players.find? (fun p => p.id == sidB) = some plB')
    (hdeckB : gsB.deck ≠ []) :
    gs1.deck = gs.deck
    ∧ pl'.handCards.Sublist pl.handCards
    ∧ gsB1.deck = gsB.deck.drop (gsB.deck.length - gsB1.deck.length)
    ∧ (3 ≤ plB'.handCards.length ∨ gsB1.deck = []) := by
  obtain ⟨⟨n, hn⟩, hB2⟩ := playCard_success_shape gsB sidB cards gsB1 oB hrunB hoB
  have hB1 : gsB1.deck = gsB.deck.drop (gsB.deck.length - gsB1.deck.length) := by
    rw [hn]
    exact (drop_sub_self _ n).symm
  have hB3 := hB2 hdeckB plB' hfindB'
  unfold playCard2WithBlind at hrun
  rw [hfind] at hrun
  dsimp only at hrun
  split at hrun
  all_goals try exact (err_ne_ok hrun ho).elim
  all_goals try split at hrun
  all_goals try exact (err_ne_ok hrun ho).elim
  all_goals try split at hrun
  all_goals try exact (err_ne_ok hrun ho).elim
  all_goals try split at hrun
  all_goals try exact (err_ne_ok hrun ho).elim
  all_goals try split at hrun
  all_goals try exact (err_ne_ok hrun ho).elim
  all_goals try split at hrun
  all_goals try exact (err_ne_ok hrun ho).elim
  all_goals try split at hrun
  all_goals try split at hrun
  all_goals try split at hrun
  all_goals try split at hrun
  all_goals rw [Prod.mk.injEq] at hrun
  all_goals obtain ⟨hfst, -⟩ := hrun
  all_goals subst hfst
  all_goals refine ⟨by
      try simp only [nextPlayer_deck]
      try rfl,
    by
      try simp only [nextPlayer_players] at hfind'
      try dsimp only at hfind'
      simp only [find?_updateFirst_hb, hfind, Option.map_some'] at hfind'
      obtain rfl := Option.some.inj hfind'
      exact spliceIndices_sublist _ _,
    hB1, hB3⟩

/-- Witness for `wildBlind_no_draw_vs_playCard_draw`: in `gsC10` player A
(must-throw owner) plays the 2 of hearts plus blind index 0 — the deck is
untouched and A's hand shrinks to one card although the deck is non-empty;
in `gsA` player A plays the 9 of clubs normally and draws the 7 of clubs,
emptying the deck. -/
theorem wildBlind_no_draw_vs_playCard_draw_w :
    (playCard2WithBlind gsC10 "A" [mkC "hearts" "2" 2] 0).1.deck = gsC10.deck
    ∧ ([mkC "clubs" "9" 9] : List Card).Sublist
        [mkC "hearts" "2" 2, mkC "clubs" "9" 9]
    ∧ (playCard gsA "A" [mkC "clubs" "9" 9]).1.deck =
        gsA.deck.drop
          (gsA.deck.length - (playCard gsA "A" [mkC "clubs" "9" 9]).1.deck.length)
    ∧ (3 ≤ ([mkC "hearts" "2" 2, mkC "clubs" "7" 7] : List Card).length ∨
        (playCard gsA "A" [mkC "clubs" "9" 9]).1.deck = []) :=
  wildBlind_no_draw_vs_playCard_draw
    gsC10 "A" [mkC "hearts" "2" 2] 0
    ⟨"A", "Alice", [mkC "hearts" "2" 2, mkC "clubs" "9" 9], [mkC "diamonds" "4" 4], true⟩
    ⟨"A", "Alice", [mkC "clubs" "9" 9], [], true⟩
    (playCard2WithBlind gsC10 "A" [mkC "hearts" "2" 2] 0).1 Outcome.cardPlayed
    gsA "A" [mkC "clubs" "9" 9]
    ⟨"A", "Alice", [mkC "hearts" "2" 2, mkC "clubs" "7" 7], [mkC "diamonds" "4" 4], true⟩
    (playCard gsA "A" [mkC "clubs" "9" 9]).1 Outcome.cardPlayed
    (by decide) (by decide) (by decide) (by decide)
    (by decide) (by decide) (by decide) (by decide)
